import Mathlib

/-!
A verification development for the client-side state model of the
single-page video browsing widget in `src/thisonewebsite/src/App.tsx`.

The app state (like counts, per-user like sets, comments, avatars) is
embedded shallowly: JavaScript objects (`Record<string, T>`) become
association lists over `String` keys, read through a defaulting lookup
(the code always reads with `?? defaultValue`) and written through the
object-spread update `\x7b ...obj, [k]: v \x7d`, which replaces the value of an
existing key in place and appends a fresh key at the end.  JavaScript
numbers used as like counts become `Int` (the code guards negatives with
`Math.max(0, n - 1)`).  Platform string primitives used by the code
(`trim`, `split`, the `<`/`>` string comparison) are modelled over the
character list of the string, matching the ECMAScript semantics of
comparing code points lexicographically.
-/

/-- Defaulting key lookup on an association list: the value of the first
entry with the given key, or the default.  This models the read pattern
`obj[key] ?? fallback` used throughout the source (a JavaScript object
has at most one entry per key, so first-match lookup is exact). -/
def lookupD {α : Type} : List (String × α) → String → α → α
  | [], _, d => d
  | p :: rest, k, d => if p.1 = k then p.2 else lookupD rest k d

/-- Object-spread update `\x7b ...obj, [k]: v \x7d`: if the key is present its
value is replaced at its original position, otherwise the new entry is
appended at the end, matching JavaScript property-insertion order. -/
def setKey {α : Type} : List (String × α) → String → α → List (String × α)
  | [], k, v => [(k, v)]
  | p :: rest, k, v => if p.1 = k then (k, v) :: rest else p :: setKey rest k v

/-- The set of code points treated as whitespace by the ECMAScript
`String.prototype.trim` (WhiteSpace and LineTerminator productions). -/
def jsWhitespace (c : Char) : Bool :=
  c.toNat == 9 || c.toNat == 10 || c.toNat == 11 || c.toNat == 12 ||
  c.toNat == 13 || c.toNat == 32 || c.toNat == 160 || c.toNat == 0x1680 ||
  (0x2000 ≤ c.toNat && c.toNat ≤ 0x200A) || c.toNat == 0x2028 ||
  c.toNat == 0x2029 || c.toNat == 0x202F || c.toNat == 0x205F ||
  c.toNat == 0x3000 || c.toNat == 0xFEFF

/-- `text.trim()`: drop leading and trailing whitespace. -/
def jsTrim (s : String) : String :=
  String.mk (((s.data.dropWhile jsWhitespace).reverse.dropWhile jsWhitespace).reverse)

/-- Strict lexicographic order on character lists by code point, the
order ECMAScript uses to compare strings with `<` and `>`. -/
def charListLt : List Char → List Char → Bool
  | _, [] => false
  | [], _ :: _ => true
  | a :: as, b :: bs =>
    if a.toNat < b.toNat then true
    else if b.toNat < a.toNat then false
    else charListLt as bs

/-- The JavaScript string comparison `a < b`. -/
def jsStrLt (a b : String) : Bool := charListLt a.data b.data

/-- The first component of `email.split(sep)` for the one-character
separator `sep`: the prefix of the string before its first occurrence. -/
def splitFirst (s : String) (sep : Char) : String :=
  String.mk (s.data.takeWhile (fun c => !(c == sep)))

/-! ## Data model (`App.tsx`, lines 12-75) -/

inductive TabKey
  | trending
  | your
deriving DecidableEq

inductive VideoCategory
  | TRENDING
  | YOUR
deriving DecidableEq

structure Video where
  id : String
  title : String
  description : String
  url : String
  category : VideoCategory
deriving DecidableEq

structure Comment where
  id : String
  videoId : String
  author : String
  text : String
  createdAt : String
deriving DecidableEq

structure CurrentUser where
  id : String
  email : String
  username : String
deriving DecidableEq

/-- The fixed in-memory catalog `ALL_VIDEOS`. -/
def ALL_VIDEOS : List Video :=
  [ { id := "wowfinalfinal1"
    , title := "Epic Wow Final 1"
    , description := "Kicking things off with your first wowfinalfinal masterpiece."
    , url := "https://mystorageaccount2306.blob.core.windows.net/videos/wowfinalfinal1.mp4"
    , category := .TRENDING }
  , { id := "wowfinalfinal2"
    , title := "Epic Wow Final 2"
    , description := "The sequel that absolutely no one is ready for."
    , url := "https://mystorageaccount2306.blob.core.windows.net/videos/wowfinalfinal2.mp4"
    , category := .TRENDING }
  , { id := "wowfinalfinal3"
    , title := "Your Wow Final 3"
    , description := "Uploaded by you – flexing those video skills."
    , url := "https://mystorageaccount2306.blob.core.windows.net/videos/wowfinalfinal3.mp4"
    , category := .YOUR }
  , { id := "wowfinalfinal4"
    , title := "Your Wow Final 4"
    , description := "Another banger in your personal collection."
    , url := "https://mystorageaccount2306.blob.core.windows.net/videos/wowfinalfinal4.mp4"
    , category := .YOUR } ]

/-- `LikesState` is `Record<string, number>`: videoId to like count. -/
abbrev LikesState := List (String × Int)

/-- `UserLikesState` is `Record<string, string[]>`: username to liked videoIds. -/
abbrev UserLikesState := List (String × List String)

/-- `UserAvatarState` is `Record<string, string>`: userId to data URL. -/
abbrev UserAvatarState := List (String × String)

/-- The mutable interaction state held by the `App` component: the four
persisted maps (`likes`, `userLikes`, `comments`, `avatars`). -/
structure AppState where
  likes : LikesState
  userLikes : UserLikesState
  comments : List Comment
  avatars : UserAvatarState
deriving DecidableEq

/-- The initial value of the four maps (`useState(\x7b\x7d)` / `useState([])`). -/
def initialState : AppState :=
  { likes := [], userLikes := [], comments := [], avatars := [] }

/-! ## Operations (`App.tsx`, lines 97-374) -/

/-- `deriveUsername(email)` (lines 97-101): the placeholder for a null or
empty email, otherwise the part of the email before the first `@`, or
the whole email when that part is empty (`name || email`). -/
def deriveUsername (email : Option String) : String :=
  match email with
  | none => "mystery-creature"
  | some e =>
    if e = "" then "mystery-creature"
    else
      let name := splitFirst e '@'
      if name = "" then e else name

/-- A user object of the Identity Collaborator session: the id, the
optional email, and the optional `user_metadata.username` field (absent
metadata and absent username field are both modelled as `none`). -/
structure SessionUser where
  id : String
  email : Option String
  metaUsername : Option String
deriving DecidableEq

/-- The username derivation applied to a session user everywhere in the
source (lines 158-160, 177-179, 239-241, 269-271):
`(u.user_metadata && u.user_metadata.username) || deriveUsername(u.email ?? null)`.
An absent or empty metadata username falls through to `deriveUsername`. -/
def sessionUsername (u : SessionUser) : String :=
  match u.metaUsername with
  | some m => if m = "" then deriveUsername u.email else m
  | none => deriveUsername u.email

/-- `toggleLike(videoId)` (lines 295-321).  Returns the updated state and
the authentication error message, if one was raised.  With no current
user the state is unchanged and an error is reported; otherwise the
current username's like list and the video's count are updated together. -/
def toggleLike (currentUser : Option CurrentUser) (videoId : String)
    (s : AppState) : AppState × Option String :=
  match currentUser with
  | none => (s, some "You need to be logged in to like videos.")
  | some user =>
    let username := user.username
    let existingForUser := lookupD s.userLikes username []
    let hasLiked := existingForUser.contains videoId
    let newUserLikes : UserLikesState :=
      setKey s.userLikes username
        (if hasLiked then existingForUser.filter (fun id => !(id == videoId))
         else existingForUser ++ [videoId])
    let currentCount := lookupD s.likes videoId 0
    let newLikes : LikesState :=
      setKey s.likes videoId
        (if hasLiked then max 0 (currentCount - 1) else currentCount + 1)
    ({ s with userLikes := newUserLikes, likes := newLikes }, none)

/-- `handleAddComment(videoId, text)` (lines 323-342).  The two
time-derived quantities (`Date.now()` and `new Date().toISOString()`)
are passed in as parameters.  Returns the updated state and the
authentication error message, if one was raised. -/
def handleAddComment (currentUser : Option CurrentUser) (videoId text : String)
    (nowMillis : Nat) (nowIso : String) (s : AppState) : AppState × Option String :=
  match currentUser with
  | none => (s, some "You need to be logged in to comment.")
  | some user =>
    let trimmed := jsTrim text
    if trimmed = "" then (s, none)
    else
      ({ s with comments := s.comments ++
          [{ id := videoId ++ "-" ++ toString nowMillis
           , videoId := videoId
           , author := user.username
           , text := trimmed
           , createdAt := nowIso }] }, none)

/-- `handleAvatarChange` (lines 424-437), after the file has been read
into a data URL: store it keyed by the current user's id; a no-op when
logged out. -/
def handleAvatarChange (currentUser : Option CurrentUser) (dataUrl : String)
    (s : AppState) : AppState :=
  match currentUser with
  | none => s
  | some u => { s with avatars := setKey s.avatars u.id dataUrl }

/-- `likesForVideo(videoId)` (line 344): `likes[videoId] ?? 0`. -/
def likesForVideo (s : AppState) (videoId : String) : Int :=
  lookupD s.likes videoId 0

/-- The comparator passed to `sort` in `commentsForVideo` (line 349):
`a.createdAt > b.createdAt ? 1 : -1`. -/
def commentCmp (a b : Comment) : Int :=
  if jsStrLt b.createdAt a.createdAt then 1 else -1

/-- The before-or-equal relation induced by the comparator: `a` may stay
before `b` exactly when the comparator does not order `a` after `b`. -/
def commentLe (a b : Comment) : Bool :=
  decide (commentCmp a b ≤ 0)

/-- `commentsForVideo(videoId)` (lines 346-349): the stored comments for
the video, sorted with the comparator.  The comparator never returns 0,
so it is not a consistent comparison function in the ECMAScript sense
and the standard leaves the resulting sort order implementation-defined;
the operation is therefore modelled relative to the engine sort actually
used, taken as a parameter. -/
def commentsForVideoWith (sortImpl : List Comment → List Comment)
    (comments : List Comment) (videoId : String) : List Comment :=
  sortImpl (comments.filter (fun c => c.videoId == videoId))

/-- One conforming engine model of `Array.prototype.sort` with the
comment comparator: an engine that sorts stably, treating a comparator
result at most 0 as before-or-equal. -/
def stableSortComments (l : List Comment) : List Comment :=
  l.mergeSort commentLe

/-- One step of another conforming engine model: the binary insertion
sort V8 applies to short arrays.  V8 inserts the pivot at the leftmost
position whose element x satisfies cmp(pivot, x) < 0; over a prefix
sorted by the comparator-induced preorder that predicate is monotone, so
the binary search lands exactly where this linear scan does.  Since the
comparator returns -1 on ties, the pivot lands BEFORE elements with an
equal createdAt, reversing their insertion order. -/
def v8Insert (c : Comment) : List Comment → List Comment
  | [] => [c]
  | x :: xs => if commentCmp c x < 0 then c :: x :: xs else x :: v8Insert c xs

/-- The V8 engine model of `Array.prototype.sort` with the comment
comparator: elements are inserted left to right into a sorted prefix. -/
def v8SortComments (l : List Comment) : List Comment :=
  l.foldl (fun acc c => v8Insert c acc) []

/-- The tab filter used at lines 197-200, 367-369 and 439-441:
`activeTab === t ? v.category === TRENDING : v.category === YOUR`. -/
def filteredVideos (tab : TabKey) : List Video :=
  ALL_VIDEOS.filter (fun v =>
    match tab with
    | .trending => v.category == .TRENDING
    | .your => v.category == .YOUR)

/-- The index computation of `cycleVideo` (lines 365-374) over a list of
the given length: `len = list.length || 1; (prev + direction + len) % len`.
The source calls it with `direction` of 1 or -1 only (its TypeScript
type is the literal type `1 | -1`), so the dividend is non-negative and
the ECMAScript remainder agrees with the Euclidean one. -/
def cycleIndexCore (listLen : Nat) (direction : Int) (prev : Nat) : Nat :=
  let len : Int := if listLen == 0 then 1 else (listLen : Int)
  ((((prev : Int) + direction + len) % len)).toNat

/-- `cycleVideo(direction)` (lines 365-374): advance or retreat the
current index within the list filtered by the active tab. -/
def cycleVideo (tab : TabKey) (direction : Int) (prev : Nat) : Nat :=
  cycleIndexCore (filteredVideos tab).length direction prev

/-- `currentList[currentIndex] ?? currentList[0] ?? null` (line 442). -/
def currentVideoOf (list : List Video) (i : Nat) : Option Video :=
  match list.get? i with
  | some v => some v
  | none => list.get? 0

/-! ## Navigation state (`App.tsx`, lines 104-105, 197-204, 365-374) -/

/-- The navigation state: the active tab and the current index. -/
structure NavState where
  activeTab : TabKey
  currentIndex : Nat
deriving DecidableEq

/-- The index-clamping effect (lines 197-204): whenever the current
index is at or beyond the length of the list filtered by the active
tab, reset it to 0. -/
def clampIndex (s : NavState) : NavState :=
  if (filteredVideos s.activeTab).length ≤ s.currentIndex then
    { s with currentIndex := 0 }
  else s

/-- A tab switch (tab click, wheel gesture or vertical swipe) followed
by the index-clamping effect. -/
def selectTab (t : TabKey) (s : NavState) : NavState :=
  clampIndex { s with activeTab := t }

/-- A next/prev action (click zone or horizontal swipe) followed by the
index-clamping effect. -/
def applyCycle (d : Int) (s : NavState) : NavState :=
  clampIndex { s with currentIndex := cycleVideo s.activeTab d s.currentIndex }

/-- The navigation states reachable from the initial render
(`useState('trending')`, `useState(0)`) by tab switches and next/prev
actions. -/
inductive NavReachable : NavState → Prop
  | init : NavReachable { activeTab := .trending, currentIndex := 0 }
  | tab (t : TabKey) {s : NavState} : NavReachable s → NavReachable (selectTab t s)
  | cycle (d : Int) {s : NavState} : NavReachable s → NavReachable (applyCycle d s)

/-! ## Persistence (`App.tsx`, lines 68-95, 124-150) -/

/-- JSON values, the common currency of the Persistent Store: the state
maps are written with `JSON.stringify` and read back with `JSON.parse`. -/
inductive Json
  | jnum (n : Int)
  | jstr (s : String)
  | jarr (xs : List Json)
  | jobj (fields : List (String × Json))

/-- A raw entry of the browser-local key-value store: either a string
that `JSON.parse` accepts (represented by the parsed value) or one it
throws on. -/
inductive StoredRaw
  | valid (j : Json)
  | malformed (s : String)

/-- `JSON.parse` on a raw stored string: the value, or failure. -/
def jsonParse : StoredRaw → Option Json
  | .valid j => some j
  | .malformed _ => none

/-- The browser-local key-value store. -/
abbrev Storage := String → Option StoredRaw

/-- `loadFromStorage(key, fallback)` (lines 77-86): a missing entry or
one that `JSON.parse` throws on yields the fallback (the `try/catch`
swallows the error); otherwise the parsed value. -/
def loadFromStorage (store : Storage) (key : String) (fallback : Json) : Json :=
  match store key with
  | none => fallback
  | some raw =>
    match jsonParse raw with
    | some v => v
    | none => fallback

/-- `saveToStorage(key, value)` (lines 88-95): store the serialized
value under the key. -/
def saveToStorage (store : Storage) (key : String) (value : Json) : Storage :=
  fun k => if k = key then some (.valid value) else store k

def LIKES_KEY : String := "wowsite_likes_v1"

def USER_LIKES_KEY : String := "wowsite_userlikes_v1"

def COMMENTS_KEY : String := "wowsite_comments_v1"

def USER_AVATARS_KEY : String := "wowsite_user_avatars_v1"

/-- `JSON.stringify` of a `LikesState` object. -/
def likesToJson (m : LikesState) : Json :=
  .jobj (m.map (fun p => (p.1, .jnum p.2)))

/-- `JSON.stringify` of a `UserLikesState` object. -/
def userLikesToJson (m : UserLikesState) : Json :=
  .jobj (m.map (fun p => (p.1, .jarr (p.2.map Json.jstr))))

/-- `JSON.stringify` of a single comment. -/
def commentToJson (c : Comment) : Json :=
  .jobj [("id", .jstr c.id), ("videoId", .jstr c.videoId),
         ("author", .jstr c.author), ("text", .jstr c.text),
         ("createdAt", .jstr c.createdAt)]

/-- `JSON.stringify` of the comment list. -/
def commentsToJson (cs : List Comment) : Json :=
  .jarr (cs.map commentToJson)

/-- `JSON.stringify` of a `UserAvatarState` object. -/
def avatarsToJson (m : UserAvatarState) : Json :=
  .jobj (m.map (fun p => (p.1, .jstr p.2)))

/-! ## Reachability and the like-count invariant -/

/-- The application states reachable from the initial empty state by the
mutating operations of the component (like toggles, comment
submissions, avatar changes), the reachability notion of the spec's
testable properties. -/
inductive Reachable : AppState → Prop
  | init : Reachable initialState
  | toggle (cu : Option CurrentUser) (videoId : String) {s : AppState} :
      Reachable s → Reachable (toggleLike cu videoId s).1
  | comment (cu : Option CurrentUser) (videoId text : String)
      (nowMillis : Nat) (nowIso : String) {s : AppState} :
      Reachable s → Reachable (handleAddComment cu videoId text nowMillis nowIso s).1
  | avatar (cu : Option CurrentUser) (dataUrl : String) {s : AppState} :
      Reachable s → Reachable (handleAvatarChange cu dataUrl s)

/-- The number of usernames whose like set contains the video. -/
def countLikers (m : UserLikesState) (videoId : String) : Nat :=
  (m.filter (fun p => p.2.contains videoId)).length

/-- The lockstep invariant: every video's like count equals the number
of usernames whose like set contains it. -/
def LikesInvariant (s : AppState) : Prop :=
  ∀ v : String, lookupD s.likes v 0 = (countLikers s.userLikes v : Int)

/-! ## Lemmas about the association-list object model -/

theorem lookupD_setKey_self {α : Type} (m : List (String × α)) (k : String) (v d : α) :
    lookupD (setKey m k v) k d = v := by
  induction m with
  | nil => simp [setKey, lookupD]
  | cons p rest ih =>
    by_cases h : p.1 = k
    · simp [setKey, lookupD, h]
    · simp [setKey, lookupD, h, ih]

theorem lookupD_setKey_ne {α : Type} (m : List (String × α)) {k k' : String}
    (h : k' ≠ k) (v d : α) :
    lookupD (setKey m k v) k' d = lookupD m k' d := by
  have hk : k ≠ k' := Ne.symm h
  induction m with
  | nil => simp [setKey, lookupD, hk]
  | cons p rest ih =>
    by_cases hp : p.1 = k
    · simp [setKey, lookupD, hp, hk]
    · simp [setKey, lookupD, hp, ih]

theorem contains_filter_self (L : List String) (v : String) :
    (L.filter (fun id => !(id == v))).contains v = false := by
  simp [List.mem_filter]

theorem contains_filter_ne (L : List String) {w v : String} (h : w ≠ v) :
    (L.filter (fun id => !(id == v))).contains w = L.contains w := by
  simp [List.mem_filter, h]

theorem contains_append_self (L : List String) (v : String) :
    (L ++ [v]).contains v = true := by
  simp

theorem contains_append_ne (L : List String) {w v : String} (h : w ≠ v) :
    (L ++ [v]).contains w = L.contains w := by
  simp [h]

theorem countLikers_nil (w : String) : countLikers [] w = 0 := rfl

theorem countLikers_setKey (m : UserLikesState) (k : String) (L : List String)
    (w : String) :
    countLikers (setKey m k L) w
        + (if (lookupD m k []).contains w then 1 else 0)
      = countLikers m w + (if L.contains w then 1 else 0) := by
  induction m with
  | nil =>
    by_cases hL : w ∈ L <;> simp [setKey, lookupD, countLikers, hL]
  | cons p rest ih =>
    by_cases hp : p.1 = k
    · by_cases hL : w ∈ L <;> by_cases hP : w ∈ p.2 <;>
        simp [setKey, lookupD, countLikers, List.filter_cons, hp, hL, hP] <;>
        omega
    · by_cases hL : w ∈ L <;> by_cases hP : w ∈ p.2 <;>
        by_cases hQ : w ∈ lookupD rest k [] <;>
        simp [setKey, lookupD, countLikers, List.filter_cons, hp, hL, hP, hQ]
          at ih ⊢ <;>
        omega

theorem one_le_countLikers (m : UserLikesState) (k w : String)
    (h : (lookupD m k []).contains w = true) : 1 ≤ countLikers m w := by
  induction m with
  | nil => simp [lookupD] at h
  | cons p rest ih =>
    by_cases hp : p.1 = k
    · have h2 : w ∈ p.2 := by
        have h3 := h
        rw [lookupD, if_pos hp] at h3
        simpa using h3
      simp [countLikers, List.filter_cons, h2]
    · have h2 := h
      rw [lookupD, if_neg hp] at h2
      have h3 := ih h2
      simp only [countLikers, List.filter_cons] at h3 ⊢
      by_cases hP : w ∈ p.2 <;> simp [hP] at h3 ⊢ <;> omega

/-- A like toggle by a signed-in user preserves the lockstep invariant. -/
theorem likesInvariant_toggle (cu : Option CurrentUser) (videoId : String)
    {s : AppState} (h : LikesInvariant s) :
    LikesInvariant (toggleLike cu videoId s).1 := by
  cases cu with
  | none => exact h
  | some user =>
    intro w
    cases hlk : (lookupD s.userLikes user.username []).contains videoId with
    | true =>
      have hmem : videoId ∈ lookupD s.userLikes user.username [] := by
        simpa using hlk
      have hlikes : (toggleLike (some user) videoId s).1.likes
          = setKey s.likes videoId (max 0 (lookupD s.likes videoId 0 - 1)) := by
        simp [toggleLike, hmem]
      have huser : (toggleLike (some user) videoId s).1.userLikes
          = setKey s.userLikes user.username
              ((lookupD s.userLikes user.username []).filter
                (fun id => !(id == videoId))) := by
        simp [toggleLike, hmem]
      rw [hlikes, huser]
      have hge := one_le_countLikers s.userLikes user.username videoId hlk
      have hinv := h videoId
      have hcount := countLikers_setKey s.userLikes user.username
        ((lookupD s.userLikes user.username []).filter (fun id => !(id == videoId))) w
      by_cases hw : w = videoId
      · subst hw
        rw [lookupD_setKey_self]
        rw [contains_filter_self, hlk] at hcount
        simp at hcount
        have hmax : max 0 (lookupD s.likes w 0 - 1) = lookupD s.likes w 0 - 1 := by
          rw [hinv] at *
          exact max_eq_right (by omega)
        rw [hmax, hinv]
        omega
      · rw [lookupD_setKey_ne _ hw]
        rw [contains_filter_ne _ hw] at hcount
        have hinvw := h w
        by_cases hcw : (lookupD s.userLikes user.username []).contains w = true <;>
          simp [hcw] at hcount <;> omega
    | false =>
      have hmem : videoId ∉ lookupD s.userLikes user.username [] := by
        simpa using hlk
      have hlikes : (toggleLike (some user) videoId s).1.likes
          = setKey s.likes videoId (lookupD s.likes videoId 0 + 1) := by
        simp [toggleLike, hmem]
      have huser : (toggleLike (some user) videoId s).1.userLikes
          = setKey s.userLikes user.username
              (lookupD s.userLikes user.username [] ++ [videoId]) := by
        simp [toggleLike, hmem]
      rw [hlikes, huser]
      have hinv := h videoId
      have hcount := countLikers_setKey s.userLikes user.username
        (lookupD s.userLikes user.username [] ++ [videoId]) w
      by_cases hw : w = videoId
      · subst hw
        rw [lookupD_setKey_self]
        rw [contains_append_self, hlk] at hcount
        simp at hcount
        rw [hinv]
        omega
      · rw [lookupD_setKey_ne _ hw]
        rw [contains_append_ne _ hw] at hcount
        have hinvw := h w
        by_cases hcw : (lookupD s.userLikes user.username []).contains w = true <;>
          simp [hcw] at hcount <;> omega

/-- All states reachable by the mutating operations satisfy the
lockstep invariant. -/
theorem reachable_likesInvariant {s : AppState} (h : Reachable s) :
    LikesInvariant s := by
  induction h with
  | init => intro v; simp [initialState, lookupD, countLikers]
  | toggle cu videoId _ ih => exact likesInvariant_toggle cu videoId ih
  | comment cu videoId text nowMillis nowIso _ ih =>
    intro v
    have hv := ih v
    cases cu with
    | none => simpa [handleAddComment] using hv
    | some u =>
      by_cases ht : jsTrim text = "" <;> simp [handleAddComment, ht] <;> exact hv
  | avatar cu dataUrl _ ih =>
    intro v
    have hv := ih v
    cases cu <;> simp [handleAvatarChange] <;> exact hv

/-- Claim C2: the invariant that each video's like count equals the
number of usernames whose like set contains it (and hence is never
negative) holds in the initial empty state and is preserved by every
`toggleLike` call made with a non-null current user. -/
theorem toggleLike_preserves_invariant_C2 :
    LikesInvariant initialState
    ∧ ∀ (s : AppState) (u : CurrentUser) (v : String),
        LikesInvariant s →
        LikesInvariant (toggleLike (some u) v s).1
        ∧ ∀ w : String, 0 ≤ lookupD (toggleLike (some u) v s).1.likes w 0 := by
  constructor
  · intro v; simp [initialState, lookupD, countLikers]
  · intro s u v hs
    have hpres := likesInvariant_toggle (some u) v hs
    refine ⟨hpres, fun w => ?_⟩
    rw [hpres w]
    exact Int.natCast_nonneg _

/-- Witness for C2 at a concrete signed-in toggle from the empty state. -/
theorem toggleLike_preserves_invariant_C2_witness :
    LikesInvariant
      (toggleLike (some { id := "id1", email := "alice@example.com", username := "alice" })
        "wowfinalfinal1" initialState).1 :=
  (toggleLike_preserves_invariant_C2.2 initialState
    { id := "id1", email := "alice@example.com", username := "alice" }
    "wowfinalfinal1"
    (by intro v; simp [initialState, lookupD, countLikers])).1

/-- The `likes` component produced by a signed-in `toggleLike`. -/
theorem toggleLike_likes_eq (u : CurrentUser) (v : String) (s : AppState) :
    (toggleLike (some u) v s).1.likes
      = setKey s.likes v
          (if (lookupD s.userLikes u.username []).contains v
           then max 0 (lookupD s.likes v 0 - 1)
           else lookupD s.likes v 0 + 1) := by
  simp [toggleLike]

/-- The `userLikes` component produced by a signed-in `toggleLike`. -/
theorem toggleLike_userLikes_eq (u : CurrentUser) (v : String) (s : AppState) :
    (toggleLike (some u) v s).1.userLikes
      = setKey s.userLikes u.username
          (if (lookupD s.userLikes u.username []).contains v
           then (lookupD s.userLikes u.username []).filter (fun id => !(id == v))
           else lookupD s.userLikes u.username [] ++ [v]) := by
  simp [toggleLike]

/-- Claim C1: in every reachable state, toggling a like twice in a row
with the same current user returns both the video's like count and the
user's like-membership set to their values before the first call. -/
theorem toggleLike_double_toggle_C1 (s : AppState) (u : CurrentUser) (v : String)
    (hs : Reachable s) :
    likesForVideo (toggleLike (some u) v (toggleLike (some u) v s).1).1 v
        = likesForVideo s v
    ∧ ∀ w : String,
        w ∈ lookupD (toggleLike (some u) v (toggleLike (some u) v s).1).1.userLikes
              u.username []
          ↔ w ∈ lookupD s.userLikes u.username [] := by
  have hinv := reachable_likesInvariant hs
  have hc := hinv v
  cases hlk : (lookupD s.userLikes u.username []).contains v with
  | true =>
    have hmem : v ∈ lookupD s.userLikes u.username [] := by simpa using hlk
    have hge := one_le_countLikers s.userLikes u.username v hlk
    have hlikes1 := toggleLike_likes_eq u v s
    have huser1 := toggleLike_userLikes_eq u v s
    rw [hlk] at hlikes1 huser1
    simp only [if_pos] at hlikes1 huser1
    have hL1 : lookupD (toggleLike (some u) v s).1.userLikes u.username []
        = (lookupD s.userLikes u.username []).filter (fun id => !(id == v)) := by
      rw [huser1, lookupD_setKey_self]
    have hc1 : lookupD (toggleLike (some u) v s).1.likes v 0
        = max 0 (lookupD s.likes v 0 - 1) := by
      rw [hlikes1, lookupD_setKey_self]
    have hlk2 : (lookupD (toggleLike (some u) v s).1.userLikes u.username []).contains v
        = false := by
      rw [hL1]; exact contains_filter_self _ _
    have hlikes2 := toggleLike_likes_eq u v (toggleLike (some u) v s).1
    have huser2 := toggleLike_userLikes_eq u v (toggleLike (some u) v s).1
    rw [hlk2] at hlikes2 huser2
    simp only [Bool.false_eq_true, if_false] at hlikes2 huser2
    constructor
    · rw [likesForVideo, likesForVideo, hlikes2, lookupD_setKey_self, hc1]
      have hmax : max 0 (lookupD s.likes v 0 - 1) = lookupD s.likes v 0 - 1 := by
        rw [hc]
        exact max_eq_right (by omega)
      rw [hmax]
      omega
    · intro w
      rw [huser2, lookupD_setKey_self, hL1]
      by_cases hw : w = v
      · subst hw; simp [hmem]
      · simp [List.mem_append, List.mem_filter, hw]
  | false =>
    have hmem : v ∉ lookupD s.userLikes u.username [] := by simpa using hlk
    have hlikes1 := toggleLike_likes_eq u v s
    have huser1 := toggleLike_userLikes_eq u v s
    rw [hlk] at hlikes1 huser1
    simp only [Bool.false_eq_true, if_false] at hlikes1 huser1
    have hL1 : lookupD (toggleLike (some u) v s).1.userLikes u.username []
        = lookupD s.userLikes u.username [] ++ [v] := by
      rw [huser1, lookupD_setKey_self]
    have hc1 : lookupD (toggleLike (some u) v s).1.likes v 0
        = lookupD s.likes v 0 + 1 := by
      rw [hlikes1, lookupD_setKey_self]
    have hlk2 : (lookupD (toggleLike (some u) v s).1.userLikes u.username []).contains v
        = true := by
      rw [hL1]; exact contains_append_self _ _
    have hlikes2 := toggleLike_likes_eq u v (toggleLike (some u) v s).1
    have huser2 := toggleLike_userLikes_eq u v (toggleLike (some u) v s).1
    rw [hlk2] at hlikes2 huser2
    simp only [if_pos] at hlikes2 huser2
    constructor
    · rw [likesForVideo, likesForVideo, hlikes2, lookupD_setKey_self, hc1]
      have hmax : max 0 (lookupD s.likes v 0 + 1 - 1) = lookupD s.likes v 0 := by
        rw [hc]
        rw [show ((countLikers s.userLikes v : Int) + 1 - 1)
            = ((countLikers s.userLikes v : Nat) : Int) from by omega]
        exact max_eq_right (by omega)
      rw [hmax]
    · intro w
      rw [huser2, lookupD_setKey_self, hL1]
      by_cases hw : w = v
      · subst hw; simp [hmem]
      · simp [List.mem_append, List.mem_filter, hw]

/-- Witness for C1: a double toggle from the initial state by a
concrete user on a concrete video. -/
theorem toggleLike_double_toggle_C1_witness :
    likesForVideo
        (toggleLike (some { id := "id1", email := "alice@example.com", username := "alice" })
          "wowfinalfinal1"
          (toggleLike (some { id := "id1", email := "alice@example.com", username := "alice" })
            "wowfinalfinal1" initialState).1).1 "wowfinalfinal1"
      = likesForVideo initialState "wowfinalfinal1"
    ∧ ∀ w : String,
        w ∈ lookupD
              (toggleLike (some { id := "id1", email := "alice@example.com", username := "alice" })
                "wowfinalfinal1"
                (toggleLike (some { id := "id1", email := "alice@example.com", username := "alice" })
                  "wowfinalfinal1" initialState).1).1.userLikes "alice" []
          ↔ w ∈ lookupD initialState.userLikes "alice" [] :=
  toggleLike_double_toggle_C1 initialState
    { id := "id1", email := "alice@example.com", username := "alice" }
    "wowfinalfinal1" Reachable.init

/-- Claim C10: a like toggle by a signed-in user changes nothing except
the toggled video's like count and the toggling user's like set: counts
of other videos, like sets of other usernames, the comment list and the
avatar map are all unchanged. -/
theorem toggleLike_frame_C10 (s : AppState) (u : CurrentUser) (v : String) :
    (∀ w : String, w ≠ v →
        lookupD (toggleLike (some u) v s).1.likes w 0 = lookupD s.likes w 0)
    ∧ (∀ name : String, name ≠ u.username →
        lookupD (toggleLike (some u) v s).1.userLikes name []
          = lookupD s.userLikes name [])
    ∧ (toggleLike (some u) v s).1.comments = s.comments
    ∧ (toggleLike (some u) v s).1.avatars = s.avatars := by
  refine ⟨fun w hw => ?_, fun name hn => ?_, ?_, ?_⟩
  · simp only [toggleLike]
    exact lookupD_setKey_ne _ hw _ _
  · simp only [toggleLike]
    exact lookupD_setKey_ne _ hn _ _
  · simp [toggleLike]
  · simp [toggleLike]

/-- Witness for C10 at concrete videos and usernames. -/
theorem toggleLike_frame_C10_witness :
    lookupD
        (toggleLike (some { id := "id1", email := "alice@example.com", username := "alice" })
          "wowfinalfinal1" initialState).1.likes "wowfinalfinal2" 0
      = lookupD initialState.likes "wowfinalfinal2" 0
    ∧ lookupD
        (toggleLike (some { id := "id1", email := "alice@example.com", username := "alice" })
          "wowfinalfinal1" initialState).1.userLikes "bob" []
      = lookupD initialState.userLikes "bob" [] :=
  ⟨(toggleLike_frame_C10 initialState
      { id := "id1", email := "alice@example.com", username := "alice" }
      "wowfinalfinal1").1 "wowfinalfinal2" (by decide),
   (toggleLike_frame_C10 initialState
      { id := "id1", email := "alice@example.com", username := "alice" }
      "wowfinalfinal1").2.1 "bob" (by decide)⟩

/-- Claim C3: `handleAddComment` with no current user leaves the state
unchanged and reports the authentication error; with a current user and
whitespace-only or empty text it leaves the state unchanged and reports
nothing; with a current user and non-empty trimmed text it appends
exactly one comment authored by the current username. -/
theorem handleAddComment_gate_C3 (cu : Option CurrentUser) (videoId text : String)
    (nowMillis : Nat) (nowIso : String) (s : AppState) :
    (cu = none →
        (handleAddComment cu videoId text nowMillis nowIso s).1 = s
        ∧ (handleAddComment cu videoId text nowMillis nowIso s).2
            = some "You need to be logged in to comment.")
    ∧ (∀ u : CurrentUser, cu = some u → jsTrim text = "" →
        (handleAddComment cu videoId text nowMillis nowIso s).1 = s
        ∧ (handleAddComment cu videoId text nowMillis nowIso s).2 = none)
    ∧ (∀ u : CurrentUser, cu = some u → jsTrim text ≠ "" →
        (handleAddComment cu videoId text nowMillis nowIso s).1.comments
            = s.comments ++
              [{ id := videoId ++ "-" ++ toString nowMillis
               , videoId := videoId
               , author := u.username
               , text := jsTrim text
               , createdAt := nowIso }]
        ∧ (handleAddComment cu videoId text nowMillis nowIso s).2 = none) := by
  refine ⟨fun hnone => ?_, fun u hu ht => ?_, fun u hu ht => ?_⟩
  · subst hnone; simp [handleAddComment]
  · subst hu; simp [handleAddComment, ht]
  · subst hu; simp [handleAddComment, ht]

/-- Witness for C3 on all three branches at concrete inputs. -/
theorem handleAddComment_gate_C3_witness :
    ((handleAddComment none "wowfinalfinal1" "nice" 5 "2024-01-01T00:00:00.000Z"
        initialState).1 = initialState
      ∧ (handleAddComment none "wowfinalfinal1" "nice" 5 "2024-01-01T00:00:00.000Z"
          initialState).2 = some "You need to be logged in to comment.")
    ∧ ((handleAddComment
          (some { id := "id1", email := "alice@example.com", username := "alice" })
          "wowfinalfinal1" "   " 5 "2024-01-01T00:00:00.000Z" initialState).1
            = initialState
      ∧ (handleAddComment
          (some { id := "id1", email := "alice@example.com", username := "alice" })
          "wowfinalfinal1" "   " 5 "2024-01-01T00:00:00.000Z" initialState).2 = none)
    ∧ ((handleAddComment
          (some { id := "id1", email := "alice@example.com", username := "alice" })
          "wowfinalfinal1" " nice " 5 "2024-01-01T00:00:00.000Z" initialState).1.comments
            = initialState.comments ++
              [{ id := "wowfinalfinal1" ++ "-" ++ toString (5 : Nat)
               , videoId := "wowfinalfinal1"
               , author := "alice"
               , text := jsTrim " nice "
               , createdAt := "2024-01-01T00:00:00.000Z" }]
      ∧ (handleAddComment
          (some { id := "id1", email := "alice@example.com", username := "alice" })
          "wowfinalfinal1" " nice " 5 "2024-01-01T00:00:00.000Z" initialState).2 = none) :=
  ⟨(handleAddComment_gate_C3 none "wowfinalfinal1" "nice" 5 "2024-01-01T00:00:00.000Z"
      initialState).1 rfl,
   (handleAddComment_gate_C3
      (some { id := "id1", email := "alice@example.com", username := "alice" })
      "wowfinalfinal1" "   " 5 "2024-01-01T00:00:00.000Z" initialState).2.1
      { id := "id1", email := "alice@example.com", username := "alice" } rfl (by decide),
   (handleAddComment_gate_C3
      (some { id := "id1", email := "alice@example.com", username := "alice" })
      "wowfinalfinal1" " nice " 5 "2024-01-01T00:00:00.000Z" initialState).2.2
      { id := "id1", email := "alice@example.com", username := "alice" } rfl (by decide)⟩

/-- Serialization of the likes map is injective. -/
theorem likesToJson_injective : Function.Injective likesToJson := by
  intro m m' h
  simp only [likesToJson, Json.jobj.injEq] at h
  refine List.map_injective_iff.mpr ?_ h
  intro p q hpq
  cases p; cases q
  simpa [Prod.ext_iff] using hpq

/-- Serialization of the per-user like map is injective. -/
theorem userLikesToJson_injective : Function.Injective userLikesToJson := by
  intro m m' h
  simp only [userLikesToJson, Json.jobj.injEq] at h
  refine List.map_injective_iff.mpr ?_ h
  intro p q hpq
  cases p; cases q
  simp only [Prod.mk.injEq, Json.jarr.injEq] at hpq
  refine Prod.ext hpq.1 ?_
  refine List.map_injective_iff.mpr ?_ hpq.2
  intro a b hab
  simpa using hab

/-- Serialization of the comment list is injective. -/
theorem commentsToJson_injective : Function.Injective commentsToJson := by
  intro cs cs' h
  simp only [commentsToJson, Json.jarr.injEq] at h
  refine List.map_injective_iff.mpr ?_ h
  intro c c' hcc
  cases c; cases c'
  simpa [commentToJson] using hcc

/-- Serialization of the avatar map is injective. -/
theorem avatarsToJson_injective : Function.Injective avatarsToJson := by
  intro m m' h
  simp only [avatarsToJson, Json.jobj.injEq] at h
  refine List.map_injective_iff.mpr ?_ h
  intro p q hpq
  cases p; cases q
  simpa [Prod.ext_iff] using hpq

/-- Claim C4: saving any of the four state maps and reloading it yields
the identical value (the serializations being injective, the map itself
is recovered), and a missing entry or one that the parser rejects loads
as the documented empty default without failing. -/
theorem storage_roundtrip_C4 :
    (∀ (store : Storage) (m : LikesState),
        loadFromStorage (saveToStorage store LIKES_KEY (likesToJson m)) LIKES_KEY
            (Json.jobj [])
          = likesToJson m)
    ∧ (∀ m m' : LikesState, likesToJson m = likesToJson m' → m = m')
    ∧ (∀ (store : Storage) (m : UserLikesState),
        loadFromStorage (saveToStorage store USER_LIKES_KEY (userLikesToJson m))
            USER_LIKES_KEY (Json.jobj [])
          = userLikesToJson m)
    ∧ (∀ m m' : UserLikesState, userLikesToJson m = userLikesToJson m' → m = m')
    ∧ (∀ (store : Storage) (cs : List Comment),
        loadFromStorage (saveToStorage store COMMENTS_KEY (commentsToJson cs))
            COMMENTS_KEY (Json.jarr [])
          = commentsToJson cs)
    ∧ (∀ cs cs' : List Comment, commentsToJson cs = commentsToJson cs' → cs = cs')
    ∧ (∀ (store : Storage) (m : UserAvatarState),
        loadFromStorage (saveToStorage store USER_AVATARS_KEY (avatarsToJson m))
            USER_AVATARS_KEY (Json.jobj [])
          = avatarsToJson m)
    ∧ (∀ m m' : UserAvatarState, avatarsToJson m = avatarsToJson m' → m = m')
    ∧ (∀ (store : Storage) (key : String) (fb : Json),
        store key = none → loadFromStorage store key fb = fb)
    ∧ (∀ (store : Storage) (key : String) (fb : Json) (raw : String),
        store key = some (.malformed raw) → loadFromStorage store key fb = fb) := by
  refine ⟨?_, fun m m' h => likesToJson_injective h,
          ?_, fun m m' h => userLikesToJson_injective h,
          ?_, fun cs cs' h => commentsToJson_injective h,
          ?_, fun m m' h => avatarsToJson_injective h,
          ?_, ?_⟩
  · intro store m; simp [loadFromStorage, saveToStorage, jsonParse]
  · intro store m; simp [loadFromStorage, saveToStorage, jsonParse]
  · intro store cs; simp [loadFromStorage, saveToStorage, jsonParse]
  · intro store m; simp [loadFromStorage, saveToStorage, jsonParse]
  · intro store key fb h; simp [loadFromStorage, h]
  · intro store key fb raw h; simp [loadFromStorage, h, jsonParse]

/-- Witness for C4: a concrete round trip, a concrete injectivity
application, a missing entry and a malformed entry. -/
theorem storage_roundtrip_C4_witness :
    loadFromStorage
        (saveToStorage (fun _ => none) LIKES_KEY (likesToJson [("wowfinalfinal1", 3)]))
        LIKES_KEY (Json.jobj [])
      = likesToJson [("wowfinalfinal1", 3)]
    ∧ ([("wowfinalfinal1", 3)] : LikesState) = [("wowfinalfinal1", 3)]
    ∧ loadFromStorage (fun _ => none) LIKES_KEY (Json.jobj []) = Json.jobj []
    ∧ loadFromStorage (fun _ => some (.malformed "not json")) COMMENTS_KEY
        (Json.jarr []) = Json.jarr [] :=
  ⟨storage_roundtrip_C4.1 (fun _ => none) [("wowfinalfinal1", 3)],
   storage_roundtrip_C4.2.1 [("wowfinalfinal1", 3)] [("wowfinalfinal1", 3)] rfl,
   (storage_roundtrip_C4.2.2.2.2.2.2.2.2.1) (fun _ => none) LIKES_KEY (Json.jobj []) rfl,
   (storage_roundtrip_C4.2.2.2.2.2.2.2.2.2) (fun _ => some (.malformed "not json"))
     COMMENTS_KEY (Json.jarr []) "not json" rfl⟩

/-- Both tab filters of the fixed catalog select exactly two videos. -/
theorem filteredVideos_length (tab : TabKey) : (filteredVideos tab).length = 2 := by
  cases tab <;> rfl

/-- After the clamping effect the index is within the filtered list. -/
theorem clampIndex_lt (s : NavState) :
    (clampIndex s).currentIndex < (filteredVideos (clampIndex s).activeTab).length := by
  unfold clampIndex
  by_cases h : (filteredVideos s.activeTab).length ≤ s.currentIndex
  · rw [filteredVideos_length] at h
    simp [h, filteredVideos_length]
  · simp only [h, if_false]
    rw [filteredVideos_length] at h ⊢
    omega

/-- Claim C6: in every reachable navigation state whose filtered list is
non-empty the current index lies within range, and a tab switch whose
target list is no longer than the previous index resets the index to 0. -/
theorem nav_index_invariant_C6 :
    (∀ ns : NavState, NavReachable ns →
        filteredVideos ns.activeTab ≠ [] →
        ns.currentIndex < (filteredVideos ns.activeTab).length)
    ∧ (∀ (t : TabKey) (s : NavState),
        (filteredVideos t).length ≤ s.currentIndex →
        (selectTab t s).currentIndex = 0) := by
  constructor
  · have key : ∀ ns : NavState, NavReachable ns →
        ns.currentIndex < (filteredVideos ns.activeTab).length := by
      intro ns h
      induction h with
      | init => simp [filteredVideos_length]
      | tab t _ _ => exact clampIndex_lt _
      | cycle d _ _ => exact clampIndex_lt _
    exact fun ns h _ => key ns h
  · intro t s h
    simp [selectTab, clampIndex, h]

/-- Witness for C6 at the initial navigation state and a concrete
out-of-range tab switch. -/
theorem nav_index_invariant_C6_witness :
    ({ activeTab := TabKey.trending, currentIndex := 0 } : NavState).currentIndex
        < (filteredVideos
            ({ activeTab := TabKey.trending, currentIndex := 0 } : NavState).activeTab).length
    ∧ (selectTab TabKey.your
        { activeTab := TabKey.trending, currentIndex := 7 }).currentIndex = 0 :=
  ⟨nav_index_invariant_C6.1 { activeTab := TabKey.trending, currentIndex := 0 }
      NavReachable.init (by decide),
   nav_index_invariant_C6.2 TabKey.your
      { activeTab := TabKey.trending, currentIndex := 7 } (by decide)⟩

/-- Counterexample to C5 as stated: on the 2-item trending list, three
consecutive next operations starting from index 0 end at index 1, not 0. -/
theorem cycleVideo_three_next_C5_counterexample :
    cycleVideo TabKey.trending 1
        (cycleVideo TabKey.trending 1 (cycleVideo TabKey.trending 1 0)) = 1
    ∧ (filteredVideos TabKey.trending).length = 2
    ∧ (1 : Nat) ≠ 0 := by
  refine ⟨by decide, by decide, by decide⟩

/-- Claim C5 (amended): on the 2-item filtered list, two consecutive
next operations return the index to 0, and in general advancing and
retreating move the index circularly modulo the filtered list length. -/
theorem cycleVideo_wraparound_C5 :
    cycleVideo TabKey.trending 1 (cycleVideo TabKey.trending 1 0) = 0
    ∧ ∀ (tab : TabKey) (prev : Nat),
        cycleVideo tab 1 prev = (prev + 1) % (filteredVideos tab).length
        ∧ cycleVideo tab (-1) prev
            = (prev + ((filteredVideos tab).length - 1)) % (filteredVideos tab).length := by
  refine ⟨by decide, ?_⟩
  intro tab prev
  simp only [cycleVideo, filteredVideos_length, cycleIndexCore]
  constructor <;> (simp only [Nat.reduceBEq]; norm_num; omega)

/-- Claim C9: the index-advance computation is total for every filtered
list length: the effective modulus is always positive, an empty list is
treated as length 1 so the advanced index is always 0 there, and no
video is selected for display from an empty list. -/
theorem cycleIndexCore_total_empty_C9 :
    (∀ listLen : Nat, (0 : Int) < (if listLen == 0 then (1 : Int) else (listLen : Int)))
    ∧ (∀ (d : Int) (prev : Nat), cycleIndexCore 0 d prev = 0)
    ∧ (∀ i : Nat, currentVideoOf [] i = none) := by
  refine ⟨?_, ?_, ?_⟩
  · intro n
    by_cases h : n = 0 <;> simp [h] <;> omega
  · intro d prev
    simp [cycleIndexCore]
  · intro i
    simp [currentVideoOf]

/-! ## The comparator order on comments -/

theorem charListLt_irrefl (l : List Char) : charListLt l l = false := by
  induction l with
  | nil => rfl
  | cons a as ih => simp [charListLt, ih]

theorem charListLt_asymm {x y : List Char} (h : charListLt x y = true) :
    charListLt y x = false := by
  induction x generalizing y with
  | nil =>
    cases y with
    | nil => simp [charListLt] at h
    | cons b bs => rfl
  | cons a as ih =>
    cases y with
    | nil => simp [charListLt] at h
    | cons b bs =>
      simp only [charListLt] at h ⊢
      by_cases h1 : a.toNat < b.toNat
      · have h2 : ¬ b.toNat < a.toNat := by omega
        simp [h1, h2]
      · by_cases h2 : b.toNat < a.toNat
        · simp [h1, h2] at h
        · simp only [h1, h2, if_false] at h ⊢
          exact ih h

theorem charListLt_trans {x y z : List Char} (hxy : charListLt x y = true)
    (hyz : charListLt y z = true) : charListLt x z = true := by
  induction x generalizing y z with
  | nil =>
    cases z with
    | nil => cases y <;> simp [charListLt] at hyz
    | cons c cs => rfl
  | cons a as ih =>
    cases y with
    | nil => simp [charListLt] at hxy
    | cons b bs =>
      cases z with
      | nil => simp [charListLt] at hyz
      | cons c cs =>
        simp only [charListLt] at hxy hyz ⊢
        by_cases h1 : a.toNat < b.toNat <;> by_cases h2 : b.toNat < c.toNat
        · simp [show a.toNat < c.toNat by omega]
        · by_cases h3 : c.toNat < b.toNat
          · simp [h2, h3] at hyz
          · have : a.toNat < c.toNat := by omega
            simp [this]
        · by_cases h3 : b.toNat < a.toNat
          · simp [h1, h3] at hxy
          · have : a.toNat < c.toNat := by omega
            simp [this]
        · by_cases h3 : b.toNat < a.toNat
          · simp [h1, h3] at hxy
          · by_cases h4 : c.toNat < b.toNat
            · simp [h2, h4] at hyz
            · have h5 : ¬ a.toNat < c.toNat := by omega
              have h6 : ¬ c.toNat < a.toNat := by omega
              simp only [h1, h3, if_false] at hxy
              simp only [h2, h4, if_false] at hyz
              simp only [h5, h6, if_false]
              exact ih hxy hyz

theorem charListLt_eq_of_not_lt {x y : List Char} (hxy : charListLt x y = false)
    (hyx : charListLt y x = false) : x = y := by
  induction x generalizing y with
  | nil =>
    cases y with
    | nil => rfl
    | cons b bs => simp [charListLt] at hxy
  | cons a as ih =>
    cases y with
    | nil => simp [charListLt] at hyx
    | cons b bs =>
      simp only [charListLt] at hxy hyx
      by_cases h1 : a.toNat < b.toNat
      · simp [h1] at hxy
      · by_cases h2 : b.toNat < a.toNat
        · simp [h2] at hyx
        · have h1x : ¬ a.val.toNat < b.val.toNat := h1
          have h2x : ¬ b.val.toNat < a.val.toNat := h2
          have hab : a = b := Char.ext (UInt32.ext (by omega))
          subst hab
          simp only [h1, h2, if_false] at hxy hyx
          rw [ih hxy hyx]

/-- The before-or-equal relation of the comparator spelled out: `a` may
stay before `b` exactly when its `createdAt` is not strictly larger. -/
theorem commentLe_eq (a b : Comment) :
    commentLe a b = !(jsStrLt b.createdAt a.createdAt) := by
  simp only [commentLe, commentCmp]
  by_cases h : jsStrLt b.createdAt a.createdAt = true <;> simp [h]

theorem commentLe_total (a b : Comment) : (commentLe a b || commentLe b a) = true := by
  rw [commentLe_eq, commentLe_eq]
  by_cases h : jsStrLt b.createdAt a.createdAt = true
  · have h2 : jsStrLt a.createdAt b.createdAt = false := by
      simp only [jsStrLt] at h ⊢
      exact charListLt_asymm h
    simp [h, h2]
  · simp [h]

theorem commentLe_trans (a b c : Comment) (h1 : commentLe a b = true)
    (h2 : commentLe b c = true) : commentLe a c = true := by
  rw [commentLe_eq] at h1 h2 ⊢
  simp only [Bool.not_eq_true', jsStrLt] at h1 h2 ⊢
  cases hca : charListLt c.createdAt.data a.createdAt.data with
  | false => rfl
  | true =>
    exfalso
    cases hbc : charListLt b.createdAt.data c.createdAt.data with
    | true =>
      have := charListLt_trans hbc hca
      rw [h1] at this
      exact absurd this (by simp)
    | false =>
      have heq : b.createdAt.data = c.createdAt.data :=
        charListLt_eq_of_not_lt hbc h2
      rw [← heq] at hca
      rw [h1] at hca
      exact absurd hca (by simp)

/-- The comparator is strictly negative exactly when the induced
before-or-equal relation holds (it only takes the values 1 and -1). -/
theorem commentCmp_lt_iff (a b : Comment) : commentCmp a b < 0 ↔ commentLe a b = true := by
  simp only [commentCmp, commentLe]
  by_cases h : jsStrLt b.createdAt a.createdAt = true <;> simp [h]

/-- Totality of the induced relation, read off one failing side. -/
theorem commentLe_false_flip {a b : Comment} (h : commentLe a b = false) :
    commentLe b a = true := by
  have htot := commentLe_total a b
  rw [h] at htot
  simpa using htot

theorem mem_v8Insert (y c : Comment) (l : List Comment) :
    y ∈ v8Insert c l ↔ y = c ∨ y ∈ l := by
  induction l with
  | nil => simp [v8Insert]
  | cons x xs ih =>
    simp only [v8Insert]
    by_cases h : commentCmp c x < 0
    · simp [h]
    · rw [if_neg h]
      simp only [List.mem_cons, ih]
      tauto

theorem v8Insert_perm (c : Comment) (l : List Comment) :
    List.Perm (v8Insert c l) (c :: l) := by
  induction l with
  | nil => exact List.Perm.refl _
  | cons x xs ih =>
    simp only [v8Insert]
    by_cases h : commentCmp c x < 0
    · rw [if_pos h]
    · rw [if_neg h]
      exact List.Perm.trans (ih.cons x) (List.Perm.swap c x xs)

theorem v8SortComments_perm_aux (l acc : List Comment) :
    List.Perm (l.foldl (fun acc c => v8Insert c acc) acc) (acc ++ l) := by
  induction l generalizing acc with
  | nil => simp
  | cons c cs ih =>
    simp only [List.foldl_cons]
    refine List.Perm.trans (ih (v8Insert c acc)) ?_
    refine List.Perm.trans (List.Perm.append_right cs (v8Insert_perm c acc)) ?_
    exact List.perm_middle.symm

theorem v8SortComments_perm (l : List Comment) :
    List.Perm (v8SortComments l) l := by
  simpa using v8SortComments_perm_aux l []

theorem v8Insert_pairwise {c : Comment} {l : List Comment}
    (h : l.Pairwise (fun a b => commentLe a b = true)) :
    (v8Insert c l).Pairwise (fun a b => commentLe a b = true) := by
  induction l with
  | nil => simp [v8Insert]
  | cons x xs ih =>
    rcases List.pairwise_cons.mp h with ⟨hx, hxs⟩
    simp only [v8Insert]
    by_cases hcx : commentCmp c x < 0
    · rw [if_pos hcx]
      refine List.pairwise_cons.mpr ⟨?_, h⟩
      intro y hy
      rcases List.mem_cons.mp hy with rfl | hy2
      · exact (commentCmp_lt_iff _ _).mp hcx
      · exact commentLe_trans _ _ _ ((commentCmp_lt_iff _ _).mp hcx) (hx y hy2)
    · rw [if_neg hcx]
      refine List.pairwise_cons.mpr ⟨?_, ih hxs⟩
      intro y hy
      rcases (mem_v8Insert y c xs).mp hy with hyc | hy2
      · rw [hyc]
        have hfalse : commentLe c x = false := by
          cases hval : commentLe c x with
          | false => rfl
          | true => exact absurd ((commentCmp_lt_iff c x).mpr hval) hcx
        exact commentLe_false_flip hfalse
      · exact hx y hy2

theorem v8Sort_pairwise_aux (l acc : List Comment)
    (h : acc.Pairwise (fun a b => commentLe a b = true)) :
    (l.foldl (fun acc c => v8Insert c acc) acc).Pairwise
      (fun a b => commentLe a b = true) := by
  induction l generalizing acc with
  | nil => simpa using h
  | cons c cs ih =>
    simp only [List.foldl_cons]
    exact ih _ (v8Insert_pairwise h)

theorem v8SortComments_pairwise (l : List Comment) :
    (v8SortComments l).Pairwise (fun a b => commentLe a b = true) :=
  v8Sort_pairwise_aux l [] List.Pairwise.nil

/-- In a sorted list, the V8 insertion places the new element after
every element whose createdAt is strictly smaller. -/
theorem v8Insert_sublist_of_lt {a c : Comment} {l : List Comment}
    (hl : l.Pairwise (fun a b => commentLe a b = true)) (ha : a ∈ l)
    (hlt : jsStrLt a.createdAt c.createdAt = true) :
    List.Sublist [a, c] (v8Insert c l) := by
  induction l with
  | nil => simp at ha
  | cons x xs ih =>
    rcases List.pairwise_cons.mp hl with ⟨hx, hxs⟩
    simp only [v8Insert]
    by_cases hcx : commentCmp c x < 0
    · exfalso
      have hxc : jsStrLt x.createdAt c.createdAt = false := by
        have hle := (commentCmp_lt_iff _ _).mp hcx
        rw [commentLe_eq] at hle
        simpa using hle
      rcases List.mem_cons.mp ha with rfl | hmem
      · rw [hlt] at hxc
        simp at hxc
      · have hxa : commentLe x a = true := hx a hmem
        have hxa2 : jsStrLt a.createdAt x.createdAt = false := by
          rw [commentLe_eq] at hxa
          simpa using hxa
        simp only [jsStrLt] at hxa2 hlt hxc
        cases hcomp : charListLt x.createdAt.data a.createdAt.data with
        | true =>
          have htr := charListLt_trans hcomp hlt
          rw [hxc] at htr
          simp at htr
        | false =>
          have hxea : x.createdAt.data = a.createdAt.data :=
            charListLt_eq_of_not_lt hcomp hxa2
          rw [hxea] at hxc
          rw [hlt] at hxc
          simp at hxc
    · rw [if_neg hcx]
      rcases List.mem_cons.mp ha with rfl | hmem
      · exact List.Sublist.cons₂ a
          (List.singleton_sublist.mpr ((mem_v8Insert c c xs).mpr (Or.inl rfl)))
      · exact List.Sublist.cons x (ih hxs hmem)

/-- Counterexample to C7 as stated: the comparator never returns 0, so
the tie order of `Array.prototype.sort` is implementation-defined, and
conforming engines disagree.  On the V8 insertion-sort model two
comments with equal createdAt are presented in reversed insertion order,
while the stable model keeps them — so equal-createdAt comments are not
guaranteed to appear in insertion order, refuting the claim at this
concrete input. -/
theorem commentsForVideo_tie_order_C7_counterexample :
    commentsForVideoWith v8SortComments
        [{ id := "c1", videoId := "wowfinalfinal1", author := "alice", text := "first", createdAt := "2024-01-01T00:00:00.000Z" },
         { id := "c2", videoId := "wowfinalfinal1", author := "bob", text := "second", createdAt := "2024-01-01T00:00:00.000Z" }] "wowfinalfinal1"
      = [({ id := "c2", videoId := "wowfinalfinal1", author := "bob", text := "second", createdAt := "2024-01-01T00:00:00.000Z" } : Comment),
         { id := "c1", videoId := "wowfinalfinal1", author := "alice", text := "first", createdAt := "2024-01-01T00:00:00.000Z" }]
    ∧ commentsForVideoWith stableSortComments
        [{ id := "c1", videoId := "wowfinalfinal1", author := "alice", text := "first", createdAt := "2024-01-01T00:00:00.000Z" },
         { id := "c2", videoId := "wowfinalfinal1", author := "bob", text := "second", createdAt := "2024-01-01T00:00:00.000Z" }] "wowfinalfinal1"
      = [({ id := "c1", videoId := "wowfinalfinal1", author := "alice", text := "first", createdAt := "2024-01-01T00:00:00.000Z" } : Comment),
         { id := "c2", videoId := "wowfinalfinal1", author := "bob", text := "second", createdAt := "2024-01-01T00:00:00.000Z" }]
    ∧ ({ id := "c1", videoId := "wowfinalfinal1", author := "alice", text := "first", createdAt := "2024-01-01T00:00:00.000Z" } : Comment).createdAt
        = ({ id := "c2", videoId := "wowfinalfinal1", author := "bob", text := "second", createdAt := "2024-01-01T00:00:00.000Z" } : Comment).createdAt
    ∧ ({ id := "c1", videoId := "wowfinalfinal1", author := "alice", text := "first", createdAt := "2024-01-01T00:00:00.000Z" } : Comment)
        ≠ ({ id := "c2", videoId := "wowfinalfinal1", author := "bob", text := "second", createdAt := "2024-01-01T00:00:00.000Z" } : Comment)
    ∧ ([({ id := "c2", videoId := "wowfinalfinal1", author := "bob", text := "second", createdAt := "2024-01-01T00:00:00.000Z" } : Comment), { id := "c1", videoId := "wowfinalfinal1", author := "alice", text := "first", createdAt := "2024-01-01T00:00:00.000Z" }] : List Comment)
        ≠ [({ id := "c1", videoId := "wowfinalfinal1", author := "alice", text := "first", createdAt := "2024-01-01T00:00:00.000Z" } : Comment), { id := "c2", videoId := "wowfinalfinal1", author := "bob", text := "second", createdAt := "2024-01-01T00:00:00.000Z" }] := by
  refine ⟨by decide, ?_, by decide, by decide, by decide⟩
  have hf : List.filter (fun c => c.videoId == "wowfinalfinal1")
      [({ id := "c1", videoId := "wowfinalfinal1", author := "alice", text := "first", createdAt := "2024-01-01T00:00:00.000Z" } : Comment),
       { id := "c2", videoId := "wowfinalfinal1", author := "bob", text := "second", createdAt := "2024-01-01T00:00:00.000Z" }]
      = [({ id := "c1", videoId := "wowfinalfinal1", author := "alice", text := "first", createdAt := "2024-01-01T00:00:00.000Z" } : Comment),
         { id := "c2", videoId := "wowfinalfinal1", author := "bob", text := "second", createdAt := "2024-01-01T00:00:00.000Z" }] := by decide
  simp only [commentsForVideoWith, stableSortComments, hf]
  exact List.mergeSort_of_sorted (by decide)

/-- Claim C7 (amended): the comments presented for a video are exactly
the stored comments with that videoId — any conforming sort returns a
permutation of the filtered list; under both engine models (the stable
one and the V8 insertion sort) they are in ascending createdAt order and
a newly added comment appears after every comment with a strictly
earlier creation time; the order among comments of equal createdAt is
implementation-defined, and insertion order is not guaranteed. -/
theorem commentsForVideo_C7_amended (cs : List Comment) (v : String) :
    (∀ sortImpl : List Comment → List Comment,
        (∀ l : List Comment, List.Perm (sortImpl l) l) →
        List.Perm (commentsForVideoWith sortImpl cs v)
          (cs.filter (fun c => c.videoId == v)))
    ∧ (commentsForVideoWith stableSortComments cs v).Pairwise
        (fun a b => jsStrLt b.createdAt a.createdAt = false)
    ∧ (commentsForVideoWith v8SortComments cs v).Pairwise
        (fun a b => jsStrLt b.createdAt a.createdAt = false)
    ∧ (∀ newC a : Comment, a ∈ cs → a.videoId = v → newC.videoId = v →
        jsStrLt a.createdAt newC.createdAt = true →
        List.Sublist [a, newC]
            (commentsForVideoWith stableSortComments (cs ++ [newC]) v)
        ∧ List.Sublist [a, newC]
            (commentsForVideoWith v8SortComments (cs ++ [newC]) v)) := by
  refine ⟨?_, ?_, ?_, ?_⟩
  · intro sortImpl hperm
    exact hperm _
  · have hs := List.sorted_mergeSort commentLe_trans commentLe_total
      (cs.filter (fun c => c.videoId == v))
    exact hs.imp (fun h => by rwa [commentLe_eq, Bool.not_eq_true'] at h)
  · exact (v8SortComments_pairwise _).imp
      (fun h => by rwa [commentLe_eq, Bool.not_eq_true'] at h)
  · intro newC a hacs hav hnv hlt
    have hle : commentLe a newC = true := by
      rw [commentLe_eq]
      simp only [jsStrLt] at hlt ⊢
      rw [charListLt_asymm hlt]
      rfl
    have hfilter : (cs ++ [newC]).filter (fun c => c.videoId == v)
        = cs.filter (fun c => c.videoId == v) ++ [newC] := by
      rw [List.filter_append]
      simp [hnv]
    have haf : a ∈ cs.filter (fun c => c.videoId == v) := by
      simp [List.mem_filter, hacs, hav]
    constructor
    · show List.Sublist [a, newC]
        (stableSortComments ((cs ++ [newC]).filter (fun c => c.videoId == v)))
      rw [hfilter]
      refine List.sublist_mergeSort commentLe_trans commentLe_total ?_ ?_
      · refine List.Pairwise.cons ?_ (List.pairwise_singleton _ _)
        intro y hy
        simp only [List.mem_singleton] at hy
        subst hy
        exact hle
      · exact (List.singleton_sublist.mpr haf).append (List.Sublist.refl [newC])
    · show List.Sublist [a, newC]
        (v8SortComments ((cs ++ [newC]).filter (fun c => c.videoId == v)))
      rw [hfilter]
      have hstep : v8SortComments (cs.filter (fun c => c.videoId == v) ++ [newC])
          = v8Insert newC (v8SortComments (cs.filter (fun c => c.videoId == v))) := by
        simp [v8SortComments, List.foldl_append]
      rw [hstep]
      exact v8Insert_sublist_of_lt (v8SortComments_pairwise _)
        ((v8SortComments_perm _).mem_iff.mpr haf) hlt

/-- Witness for the amended C7: a concrete permutation instance and a
concrete strictly-later comment landing after an earlier one in both
engine models. -/
theorem commentsForVideo_C7_amended_witness :
    List.Perm
        (commentsForVideoWith (fun l => l)
          [({ id := "c1", videoId := "wowfinalfinal1", author := "alice", text := "first", createdAt := "2024-01-01T00:00:00.000Z" } : Comment)] "wowfinalfinal1")
        (([({ id := "c1", videoId := "wowfinalfinal1", author := "alice", text := "first", createdAt := "2024-01-01T00:00:00.000Z" } : Comment)] : List Comment).filter
          (fun c => c.videoId == "wowfinalfinal1"))
    ∧ List.Sublist
        [({ id := "c1", videoId := "wowfinalfinal1", author := "alice", text := "first", createdAt := "2024-01-01T00:00:00.000Z" } : Comment),
         { id := "c3", videoId := "wowfinalfinal1", author := "carol", text := "third", createdAt := "2024-06-01T00:00:00.000Z" }]
        (commentsForVideoWith stableSortComments
          ([({ id := "c1", videoId := "wowfinalfinal1", author := "alice", text := "first", createdAt := "2024-01-01T00:00:00.000Z" } : Comment)] ++
           [{ id := "c3", videoId := "wowfinalfinal1", author := "carol", text := "third", createdAt := "2024-06-01T00:00:00.000Z" }]) "wowfinalfinal1")
    ∧ List.Sublist
        [({ id := "c1", videoId := "wowfinalfinal1", author := "alice", text := "first", createdAt := "2024-01-01T00:00:00.000Z" } : Comment),
         { id := "c3", videoId := "wowfinalfinal1", author := "carol", text := "third", createdAt := "2024-06-01T00:00:00.000Z" }]
        (commentsForVideoWith v8SortComments
          ([({ id := "c1", videoId := "wowfinalfinal1", author := "alice", text := "first", createdAt := "2024-01-01T00:00:00.000Z" } : Comment)] ++
           [{ id := "c3", videoId := "wowfinalfinal1", author := "carol", text := "third", createdAt := "2024-06-01T00:00:00.000Z" }]) "wowfinalfinal1") := by
  refine ⟨?_, ?_, ?_⟩
  · exact (commentsForVideo_C7_amended
      [{ id := "c1", videoId := "wowfinalfinal1", author := "alice", text := "first", createdAt := "2024-01-01T00:00:00.000Z" }] "wowfinalfinal1").1 (fun l => l) (fun l => List.Perm.refl l)
  · exact ((commentsForVideo_C7_amended
      [{ id := "c1", videoId := "wowfinalfinal1", author := "alice", text := "first", createdAt := "2024-01-01T00:00:00.000Z" }] "wowfinalfinal1").2.2.2
      { id := "c3", videoId := "wowfinalfinal1", author := "carol", text := "third", createdAt := "2024-06-01T00:00:00.000Z" }
      { id := "c1", videoId := "wowfinalfinal1", author := "alice", text := "first", createdAt := "2024-01-01T00:00:00.000Z" }
      (by decide) rfl rfl (by decide)).1
  · exact ((commentsForVideo_C7_amended
      [{ id := "c1", videoId := "wowfinalfinal1", author := "alice", text := "first", createdAt := "2024-01-01T00:00:00.000Z" }] "wowfinalfinal1").2.2.2
      { id := "c3", videoId := "wowfinalfinal1", author := "carol", text := "third", createdAt := "2024-06-01T00:00:00.000Z" }
      { id := "c1", videoId := "wowfinalfinal1", author := "alice", text := "first", createdAt := "2024-01-01T00:00:00.000Z" }
      (by decide) rfl rfl (by decide)).2

/-- Counterexample to C8 as stated: for the session whose email is
"@example.com" (empty local-part) the derived username is the whole
email, not the local-part; and a present-but-empty metadata username
field is ignored in favour of the email-derived name. -/
theorem sessionUsername_C8_counterexample :
    sessionUsername { id := "id1", email := some "@example.com", metaUsername := none }
        = "@example.com"
    ∧ splitFirst "@example.com" '@' = ""
    ∧ ("@example.com" : String) ≠ ""
    ∧ sessionUsername
        { id := "id2", email := some "alice@example.com", metaUsername := some "" }
        = "alice"
    ∧ ("alice" : String) ≠ "" := by
  refine ⟨by decide, by decide, by decide, by decide, by decide⟩

/-- Claim C8 (amended): the derived username equals the metadata
username field when present and non-empty; otherwise, for a non-empty
email it equals the local-part of the email when that is non-empty and
the whole email when it is empty; otherwise it is the fixed placeholder. -/
theorem sessionUsername_C8_amended (u : SessionUser) :
    (∀ m : String, u.metaUsername = some m → m ≠ "" → sessionUsername u = m)
    ∧ ((u.metaUsername = none ∨ u.metaUsername = some "") →
        ((u.email = none ∨ u.email = some "") →
            sessionUsername u = "mystery-creature")
        ∧ (∀ e : String, u.email = some e → e ≠ "" → splitFirst e '@' ≠ "" →
            sessionUsername u = splitFirst e '@')
        ∧ (∀ e : String, u.email = some e → e ≠ "" → splitFirst e '@' = "" →
            sessionUsername u = e)) := by
  refine ⟨?_, ?_⟩
  · intro m hm hne
    simp [sessionUsername, hm, hne]
  · intro hmeta
    have hsess : sessionUsername u = deriveUsername u.email := by
      rcases hmeta with h | h <;> simp [sessionUsername, h]
    refine ⟨?_, ?_, ?_⟩
    · intro he
      rcases he with h | h <;> simp [hsess, deriveUsername, h]
    · intro e he hne hsp
      simp [hsess, he, deriveUsername, hne, hsp]
    · intro e he hne hsp
      simp [hsess, he, deriveUsername, hne, hsp]

/-- Witness for the amended C8 on all three derivation paths. -/
theorem sessionUsername_C8_witness :
    sessionUsername { id := "i1", email := some "alice@example.com", metaUsername := none }
        = splitFirst "alice@example.com" '@'
    ∧ sessionUsername { id := "i2", email := none, metaUsername := none }
        = "mystery-creature"
    ∧ sessionUsername { id := "i3", email := some "bob@x", metaUsername := some "neo" }
        = "neo" :=
  ⟨((sessionUsername_C8_amended
      { id := "i1", email := some "alice@example.com", metaUsername := none }).2
      (Or.inl rfl)).2.1 "alice@example.com" rfl (by decide) (by decide),
   ((sessionUsername_C8_amended
      { id := "i2", email := none, metaUsername := none }).2
      (Or.inl rfl)).1 (Or.inl rfl),
   (sessionUsername_C8_amended
      { id := "i3", email := some "bob@x", metaUsername := some "neo" }).1
      "neo" rfl (by decide)⟩
